import Mathlib

/-!
Verification of the command-line processing pipeline of a small interactive
shell written in Rust (single file `src/main.rs`).

Strings are embedded as `List Char` (the Rust code iterates over `char`s).
Pure functions of the source (`parse_line`, `parse_redirections`,
`split_pipeline`, `build_pipeline_stages`, `is_builtin_command`) are
translated directly.  The effectful execution engine (`run_builtin`,
`execute_external_pipeline`, `execute_mixed_pipeline`, the single-stage path
of `main`) is embedded as pure functions over an `Oracle` abstracting the
operating system (path lookup, `HOME`, `chdir` outcome, file-open success,
child-process behaviour) which return the shell state together with the list
of observable events (file opens, writes to files / the real standard
streams, process spawns) in program order.
-/

namespace Shell

/-- Unicode White_Space test, matching Rust `char::is_whitespace`. -/
def isRustWhitespace (c : Char) : Bool :=
  c = '\u0009' || c = '\u000a' || c = '\u000b' || c = '\u000c' || c = '\u000d' ||
  c = ' ' || c = '\u0085' || c = '\u00a0' || c = '\u1680' ||
  c = '\u2000' || c = '\u2001' || c = '\u2002' || c = '\u2003' || c = '\u2004' ||
  c = '\u2005' || c = '\u2006' || c = '\u2007' || c = '\u2008' || c = '\u2009' ||
  c = '\u200a' || c = '\u2028' || c = '\u2029' || c = '\u202f' || c = '\u205f' ||
  c = '\u3000'

/-- Token produced by the tokenizer: its text and whether any character came
from inside quotes or from a backslash escape (struct `ParsedToken`). -/
structure ParsedToken where
  text : List Char
  quoted : Bool
deriving DecidableEq

/-- Tokenizer state (enum `State` inside `parse_line`). -/
inductive TokState
  | Normal
  | Single
  | Double
deriving DecidableEq

/-- Loop of `parse_line` (src/main.rs lines 267-348).  Arguments: state,
remaining input, accumulator `current`, flag `current_quoted`.

In the `Double`/backslash case with a following byte that is neither `"` nor
`\`, the source peeks without consuming: it appends a literal backslash and
the peeked byte is handled by the next loop iteration, still in the `Double`
state, where it is appended with `current_quoted = true` (it can be neither
of the two `Double`-state metacharacters).  That following iteration is fused
here so the recursion stays structural. -/
def parse_line_aux : TokState → List Char → List Char → Bool → List ParsedToken
  | _, [], acc, q => if acc = [] then [] else [⟨acc, q⟩]
  | .Normal, c :: rest, acc, q =>
    if c = '\'' then parse_line_aux .Single rest acc q
    else if c = '"' then parse_line_aux .Double rest acc q
    else if c = '\\' then
      match rest with
      | [] => parse_line_aux .Normal [] (acc ++ ['\\']) true
      | d :: rest2 => parse_line_aux .Normal rest2 (acc ++ [d]) true
    else if isRustWhitespace c then
      if acc = [] then parse_line_aux .Normal rest acc q
      else ⟨acc, q⟩ :: parse_line_aux .Normal rest [] false
    else parse_line_aux .Normal rest (acc ++ [c]) q
  | .Single, c :: rest, acc, q =>
    if c = '\'' then parse_line_aux .Normal rest acc q
    else parse_line_aux .Single rest (acc ++ [c]) true
  | .Double, c :: rest, acc, _q =>
    if c = '"' then parse_line_aux .Normal rest acc _q
    else if c = '\\' then
      match rest with
      | [] => parse_line_aux .Double [] (acc ++ ['\\']) true
      | d :: rest2 =>
        if d = '"' || d = '\\' then parse_line_aux .Double rest2 (acc ++ [d]) true
        else parse_line_aux .Double rest2 (acc ++ ['\\', d]) true
    else parse_line_aux .Double rest (acc ++ [c]) true

/-- Source `parse_line` (src/main.rs line 267). -/
def parse_line (input : List Char) : List ParsedToken :=
  parse_line_aux .Normal input [] false

/-- Tokenizer written from the words of the specification (§4.3): the same
three-state machine, but the accumulator tags every character with whether it
was produced inside single quotes, inside double quotes, or by backslash
processing; the token's `quoted` flag is true iff some character is tagged.
The `Double`/backslash peek case is fused exactly as in `parse_line_aux`. -/
def spec_tokenize_aux : TokState → List Char → List (Char × Bool) → List ParsedToken
  | _, [], acc => if acc = [] then [] else [⟨acc.map Prod.fst, acc.any Prod.snd⟩]
  | .Normal, c :: rest, acc =>
    if c = '\'' then spec_tokenize_aux .Single rest acc
    else if c = '"' then spec_tokenize_aux .Double rest acc
    else if c = '\\' then
      match rest with
      | [] => spec_tokenize_aux .Normal [] (acc ++ [('\\', true)])
      | d :: rest2 => spec_tokenize_aux .Normal rest2 (acc ++ [(d, true)])
    else if isRustWhitespace c then
      if acc = [] then spec_tokenize_aux .Normal rest acc
      else ⟨acc.map Prod.fst, acc.any Prod.snd⟩ :: spec_tokenize_aux .Normal rest []
    else spec_tokenize_aux .Normal rest (acc ++ [(c, false)])
  | .Single, c :: rest, acc =>
    if c = '\'' then spec_tokenize_aux .Normal rest acc
    else spec_tokenize_aux .Single rest (acc ++ [(c, true)])
  | .Double, c :: rest, acc =>
    if c = '"' then spec_tokenize_aux .Normal rest acc
    else if c = '\\' then
      match rest with
      | [] => spec_tokenize_aux .Double [] (acc ++ [('\\', true)])
      | d :: rest2 =>
        if d = '"' || d = '\\' then spec_tokenize_aux .Double rest2 (acc ++ [(d, true)])
        else spec_tokenize_aux .Double rest2 (acc ++ [('\\', true), (d, true)])
    else spec_tokenize_aux .Double rest (acc ++ [(c, true)])

/-- Specification-side tokenizer. -/
def spec_tokenize (input : List Char) : List ParsedToken :=
  spec_tokenize_aux .Normal input []

/-- Source `RedirectMode` (src/main.rs lines 350-354). -/
inductive RedirectMode
  | Truncate
  | Append
deriving DecidableEq

/-- Source `RedirectSpec` (src/main.rs lines 356-360). -/
structure RedirectSpec where
  stdout : Option (List Char × RedirectMode)
  stderr : Option (List Char × RedirectMode)
deriving DecidableEq

/-- Source `PipelineStage` (src/main.rs lines 362-367). -/
structure PipelineStage where
  cmd : List Char
  args : List (List Char)
  redirects : RedirectSpec
deriving DecidableEq

/-- The `ops` table of the closure `parse_op` inside `parse_redirections`
(src/main.rs lines 378-385), in its longest-first order. -/
def redirect_ops : List (List Char × Bool × RedirectMode) :=
  [("1>>".data, true, .Append), ("2>>".data, false, .Append), (">>".data, true, .Append),
   ("1>".data, true, .Truncate), ("2>".data, false, .Truncate), (">".data, true, .Truncate)]

/-- Loop of the closure `parse_op` (src/main.rs lines 387-394): first table
entry whose operator the text equals, or properly begins with. -/
def parse_op_go (s : List Char) : List (List Char × Bool × RedirectMode) →
    Option (Bool × RedirectMode × List Char)
  | [] => none
  | (op, is_stdout, mode) :: ops =>
    if s = op then some (is_stdout, mode, [])
    else if op.isPrefixOf s ∧ op.length < s.length then some (is_stdout, mode, s.drop op.length)
    else parse_op_go s ops

/-- The closure `parse_op` (src/main.rs lines 377-396). -/
def parse_op (s : List Char) : Option (Bool × RedirectMode × List Char) :=
  parse_op_go s redirect_ops

/-- Overwrite one stream of a `RedirectSpec` (last-wins assignment,
src/main.rs lines 413-417). -/
def set_redirect (rd : RedirectSpec) (is_stdout : Bool) (mode : RedirectMode)
    (target : List Char) : RedirectSpec :=
  if is_stdout then ⟨some (target, mode), rd.stderr⟩ else ⟨rd.stdout, some (target, mode)⟩

/-- Loop of `parse_redirections` (src/main.rs lines 374-424); `args` is the
accumulated residual in reverse. -/
def parse_redirections_go : List ParsedToken → List (List Char) → RedirectSpec →
    List (List Char) × RedirectSpec
  | [], args, rd => (args.reverse, rd)
  | t :: rest, args, rd =>
    if t.quoted then parse_redirections_go rest (t.text :: args) rd
    else
      match parse_op t.text with
      | none => parse_redirections_go rest (t.text :: args) rd
      | some (is_stdout, mode, tail) =>
        if tail = [] then
          match rest with
          | [] => ((t.text :: args).reverse, rd)
          | next :: rest2 => parse_redirections_go rest2 args (set_redirect rd is_stdout mode next.text)
        else parse_redirections_go rest args (set_redirect rd is_stdout mode tail)

/-- Source `parse_redirections` (src/main.rs lines 369-427). -/
def parse_redirections (tokens : List ParsedToken) : List (List Char) × RedirectSpec :=
  parse_redirections_go tokens [] ⟨none, none⟩

/-- Loop of `split_pipeline` (src/main.rs lines 429-444); `current` is the
stage being accumulated. -/
def split_pipeline_go : List ParsedToken → List ParsedToken → List (List ParsedToken)
  | [], current => [current]
  | t :: rest, current =>
    if !t.quoted && t.text = "|".data then current :: split_pipeline_go rest []
    else split_pipeline_go rest (current ++ [t])

/-- Source `split_pipeline` (src/main.rs line 429). -/
def split_pipeline (tokens : List ParsedToken) : List (List ParsedToken) :=
  split_pipeline_go tokens []

/-- Source `is_builtin_command` (src/main.rs lines 446-448). -/
def is_builtin_command (cmd : List Char) : Bool :=
  cmd = "echo".data || cmd = "exit".data || cmd = "type".data || cmd = "pwd".data ||
    cmd = "cd".data

/-- Source `build_pipeline_stages` (src/main.rs lines 593-607): segments whose
residual argument vector is empty are skipped. -/
def build_pipeline_stages : List (List ParsedToken) → List PipelineStage
  | [] => []
  | segment :: rest =>
    match (parse_redirections segment).1 with
    | [] => build_pipeline_stages rest
    | cmd :: args =>
      ⟨cmd, args, (parse_redirections segment).2⟩ :: build_pipeline_stages rest

/-- Operator recognition as the specification words it: the first operator in
longest-first priority order that the unquoted text begins with (equality
included); the remainder of the text after the operator is the inline
target. -/
def spec_op_go (s : List Char) : List (List Char × Bool × RedirectMode) →
    Option (Bool × RedirectMode × List Char)
  | [] => none
  | (op, is_stdout, mode) :: ops =>
    if op.isPrefixOf s then some (is_stdout, mode, s.drop op.length) else spec_op_go s ops

/-- Specification-side operator recognition. -/
def spec_op (s : List Char) : Option (Bool × RedirectMode × List Char) :=
  spec_op_go s redirect_ops

/-- Redirection extraction as the specification words it: walk left-to-right;
a quoted operator-looking token is a literal argument; an exact operator
consumes the next token as target regardless of its quoted flag, or is kept
as a literal argument when it is last; an operator with an inline remainder
uses the remainder as target; a later operator for the same stream overwrites
(the spec passed forward is updated in place). -/
def spec_extract : List ParsedToken → RedirectSpec → List (List Char) × RedirectSpec
  | [], rd => ([], rd)
  | t :: rest, rd =>
    if ¬t.quoted then
      match spec_op t.text with
      | some (is_stdout, mode, tail) =>
        if tail = [] then
          match rest with
          | [] => ([t.text], rd)
          | next :: rest2 => spec_extract rest2 (set_redirect rd is_stdout mode next.text)
        else spec_extract rest (set_redirect rd is_stdout mode tail)
      | none =>
        (t.text :: (spec_extract rest rd).1, (spec_extract rest rd).2)
    else
      (t.text :: (spec_extract rest rd).1, (spec_extract rest rd).2)

/-- Specification-side redirection extraction. -/
def spec_redirections (tokens : List ParsedToken) : List (List Char) × RedirectSpec :=
  spec_extract tokens ⟨none, none⟩

/-- A pipe separator token as the specification words it: `quoted` false and
text exactly `|`. -/
def is_pipe_tok (t : ParsedToken) : Bool :=
  !t.quoted && t.text = "|".data

/-- Pipeline split as the specification words it: a separator closes the
current segment; the result always has one more segment than there are
separators, empty segments included. -/
def spec_split : List ParsedToken → List (List ParsedToken)
  | [] => [[]]
  | t :: rest =>
    if is_pipe_tok t then [] :: spec_split rest
    else
      match spec_split rest with
      | [] => [[t]]
      | seg :: segs => (t :: seg) :: segs

/-- Persistent shell state: the process current working directory (the only
shell state mutated across commands, by `cd`). -/
structure ShellState where
  cwd : List Char
deriving DecidableEq

/-- Operating-system oracle.  `resolve` is the result of `find_in_path`;
`chdir` maps current directory and target to the new current directory on
success (`env::set_current_dir`); `openOk` tells whether `open_redirect_file`
succeeds for a path and mode; `externCap` is the captured stdout/stderr of a
spawned child given its stdin bytes (`none` = spawn failure), used by
`run_external_capture`; `spawnOk` is spawn success in the all-external
pipeline; `statusOk` is `command.status()` success in the single-stage
path. -/
structure Oracle where
  home : Option (List Char)
  resolve : List Char → Option (List Char)
  chdir : List Char → List Char → Option (List Char)
  openOk : List Char → RedirectMode → Bool
  externCap : List Char → List (List Char) → List Char → Option (List Char × List Char)
  spawnOk : List Char → List (List Char) → Bool
  statusOk : List Char → List (List Char) → Bool

/-- How a child's standard stream is wired at spawn time. -/
inductive Wiring
  | inheritStream
  | pipedStream
  | fileStream (path : List Char) (mode : RedirectMode)
deriving DecidableEq

/-- Observable events: a redirect-file open attempt (which creates the file
when it succeeds), a write into an opened redirect file, writes to the real
stdout / stderr of the shell, and a child-process spawn with its stream
wiring. -/
inductive Ev
  | openAttempt (path : List Char) (mode : RedirectMode)
  | fileWrite (path : List Char) (mode : RedirectMode) (bytes : List Char)
  | stdoutWrite (bytes : List Char)
  | stderrWrite (bytes : List Char)
  | spawnProc (cmd : List Char) (args : List (List Char)) (stdinW stdoutW stderrW : Wiring)
deriving DecidableEq

/-- Source `OutputStream` (src/main.rs lines 538-541). -/
inductive OutputStream
  | Stdout
  | Stderr
deriving DecidableEq

/-- Source `CommandResult` (src/main.rs lines 450-455). -/
structure CommandResult where
  stdout : List Char
  stderr : List Char
  should_exit : Bool
deriving DecidableEq

/-- The command-not-found diagnostic string. -/
def not_found_msg (cmd : List Char) : List Char :=
  cmd ++ ": command not found\n".data

/-- The cd failure diagnostic string. -/
def cd_err_msg (target : List Char) : List Char :=
  "cd: ".data ++ target ++ ": No such file or directory\n".data

/-- Source `ensure_redirect_files` (src/main.rs lines 529-536): attempt to open each
configured redirect file, ignoring the result. -/
def ensure_redirect_files (rd : RedirectSpec) : List Ev :=
  (match rd.stdout with
   | some (p, m) => [Ev.openAttempt p m]
   | none => []) ++
  (match rd.stderr with
   | some (p, m) => [Ev.openAttempt p m]
   | none => [])

/-- Source `write_bytes_output` (src/main.rs lines 543-566): with a configured
redirection, open the file and write on success — on open failure nothing
further happens (the function returns); without a redirection, write to the
real stream. -/
def write_bytes_output (o : Oracle) (bytes : List Char) (stream : OutputStream)
    (rd : RedirectSpec) : List Ev :=
  match (match stream with
         | .Stdout => rd.stdout
         | .Stderr => rd.stderr) with
  | some (p, m) =>
    if o.openOk p m then [Ev.openAttempt p m, Ev.fileWrite p m bytes]
    else [Ev.openAttempt p m]
  | none =>
    match stream with
    | .Stdout => [Ev.stdoutWrite bytes]
    | .Stderr => [Ev.stderrWrite bytes]

/-- Events of emitting the not-found diagnostic via `write_output`
(src/main.rs lines 568-570) to the stdout destination. -/
def not_found_events (o : Oracle) (cmd : List Char) (rd : RedirectSpec) : List Ev :=
  write_bytes_output o (not_found_msg cmd) .Stdout rd

/-- Source `run_builtin` (src/main.rs lines 457-513).  `pwd` is modelled with
`env::current_dir()` always succeeding, returning the tracked cwd. -/
def run_builtin (o : Oracle) (st : ShellState) (cmd : List Char) (args : List (List Char))
    (allow_exit apply_cd : Bool) : Option (ShellState × CommandResult) :=
  if cmd = "exit".data then
    some (st, ⟨[], [], allow_exit⟩)
  else if cmd = "echo".data then
    some (st, ⟨List.intercalate " ".data args ++ "\n".data, [], false⟩)
  else if cmd = "pwd".data then
    some (st, ⟨st.cwd ++ "\n".data, [], false⟩)
  else if cmd = "cd".data then
    if apply_cd then
      match args.head? with
      | some target =>
        match (if target = "~".data then o.home else some target) with
        | some path =>
          match o.chdir st.cwd path with
          | some newCwd => some (⟨newCwd⟩, ⟨[], [], false⟩)
          | none => some (st, ⟨[], cd_err_msg target, false⟩)
        | none => some (st, ⟨[], cd_err_msg target, false⟩)
      | none => some (st, ⟨[], [], false⟩)
    else some (st, ⟨[], [], false⟩)
  else if cmd = "type".data then
    match args.head? with
    | some query =>
      if is_builtin_command query then
        some (st, ⟨query ++ " is a shell builtin\n".data, [], false⟩)
      else
        match o.resolve query with
        | some p => some (st, ⟨query ++ " is ".data ++ p ++ "\n".data, [], false⟩)
        | none => some (st, ⟨query ++ ": not found\n".data, [], false⟩)
    | none => some (st, ⟨[], [], false⟩)
  else none

/-- Source `run_external_capture` (src/main.rs lines 572-591): spawn with fully
piped streams, feed the buffered bytes to stdin, capture both outputs. -/
def run_external_capture (o : Oracle) (stage : PipelineStage) (input : List Char) :
    Option CommandResult :=
  match o.externCap stage.cmd stage.args input with
  | some (out, err) => some ⟨out, err, false⟩
  | none => none

/-- One stage's attempt in the mixed pipeline (src/main.rs lines 682-705):
a builtin runs with `allow_exit=false`, `apply_cd=false` and without the
buffered stdin; otherwise the command must resolve and is spawned with the
buffered bytes as stdin; `none` means the not-found diagnostic is due.  The
returned state is the builtin's state (externals cannot move the shell's
cwd). -/
def mixed_step (o : Oracle) (st : ShellState) (buf : List Char) (stage : PipelineStage) :
    Option (ShellState × CommandResult) :=
  match run_builtin o st stage.cmd stage.args false false with
  | some p => some p
  | none =>
    if (o.resolve stage.cmd).isNone then none
    else
      match run_external_capture o stage buf with
      | some r => some (st, r)
      | none => none

/-- Source `execute_mixed_pipeline` (src/main.rs lines 675-717).  `buf` is the
in-memory `stdin_buffer`; the last stage is the one with an empty tail.  Per
stage: ensure its redirect files, run the stage (`mixed_step`), write its
stderr bytes immediately when non-empty, and either write stdout to the
stage's stdout destination (last stage) or pass it on as the next buffer. -/
def execute_mixed_pipeline (o : Oracle) (st : ShellState) (buf : List Char) :
    List PipelineStage → ShellState × List Ev
  | [] => (st, [])
  | stage :: rest =>
    let ev0 := ensure_redirect_files stage.redirects
    match mixed_step o st buf stage with
    | some (st', r) =>
      let evErr := if r.stderr = [] then [] else
        write_bytes_output o r.stderr .Stderr stage.redirects
      if rest.isEmpty then
        (st', ev0 ++ evErr ++ write_bytes_output o r.stdout .Stdout stage.redirects)
      else
        ((execute_mixed_pipeline o st' r.stdout rest).1,
          ev0 ++ evErr ++ (execute_mixed_pipeline o st' r.stdout rest).2)
    | none =>
      (st, ev0 ++ not_found_events o stage.cmd stage.redirects)

/-- Verification phase of `execute_external_pipeline` (src/main.rs lines
614-624): per stage in order, stop with the not-found diagnostic if the
command does not resolve, otherwise ensure its redirect files. -/
def external_verify (o : Oracle) : List PipelineStage → List Ev × Bool
  | [] => ([], true)
  | stage :: rest =>
    if (o.resolve stage.cmd).isNone then
      (not_found_events o stage.cmd stage.redirects, false)
    else
      (ensure_redirect_files stage.redirects ++ (external_verify o rest).1,
        (external_verify o rest).2)

/-- Open events of wiring one redirect-spec entry at spawn time
(src/main.rs lines 640-650, 776-786). -/
def redirect_open_events (entry : Option (List Char × RedirectMode)) : List Ev :=
  match entry with
  | some (p, m) => [Ev.openAttempt p m]
  | none => []

/-- Stream wiring resulting from one redirect-spec entry: the opened file on
success, otherwise the default inherited stream (the `if let Ok(file)`
pattern in the source leaves the stream untouched on failure). -/
def wiring_of (o : Oracle) (entry : Option (List Char × RedirectMode)) : Wiring :=
  match entry with
  | some (p, m) => if o.openOk p m then .fileStream p m else .inheritStream
  | none => .inheritStream

/-- Spawn phase of `execute_external_pipeline` (src/main.rs lines 626-672):
`first` tells whether this is the leftmost stage (whose stdin is inherited;
later stages read the previous stage's pipe).  A non-last stage gets a piped
stdout; the last honors its redirect.  Spawn failure emits the not-found
diagnostic on that stage's stdout destination and stops. -/
def external_spawn (o : Oracle) (first : Bool) : List PipelineStage → List Ev
  | [] => []
  | stage :: rest =>
    let evOut := if rest.isEmpty then redirect_open_events stage.redirects.stdout else []
    let outW := if rest.isEmpty then wiring_of o stage.redirects.stdout else .pipedStream
    let evErr := redirect_open_events stage.redirects.stderr
    let errW := wiring_of o stage.redirects.stderr
    if o.spawnOk stage.cmd stage.args then
      evOut ++ evErr ++
        [Ev.spawnProc stage.cmd stage.args (if first then .inheritStream else .pipedStream)
          outW errW] ++
        external_spawn o false rest
    else
      evOut ++ evErr ++ not_found_events o stage.cmd stage.redirects

/-- Source `execute_external_pipeline` (src/main.rs lines 609-673). -/
def execute_external_pipeline (o : Oracle) (stages : List PipelineStage) : List Ev :=
  if stages.isEmpty then []
  else if (external_verify o stages).2 then
    (external_verify o stages).1 ++ external_spawn o true stages
  else (external_verify o stages).1

/-- Source `execute_pipeline` (src/main.rs lines 719-730). -/
def execute_pipeline (o : Oracle) (st : ShellState) (segments : List (List ParsedToken)) :
    ShellState × List Ev :=
  if (build_pipeline_stages segments).isEmpty then (st, [])
  else if (build_pipeline_stages segments).all (fun s => !is_builtin_command s.cmd) then
    (st, execute_external_pipeline o (build_pipeline_stages segments))
  else execute_mixed_pipeline o st [] (build_pipeline_stages segments)

/-- Single-stage execution path of `main` (src/main.rs lines 751-804):
ensure redirect files, then builtin / spawn-with-status / not-found. -/
def run_single_stage (o : Oracle) (st : ShellState) (cmd : List Char)
    (args : List (List Char)) (rd : RedirectSpec) : ShellState × List Ev × Bool :=
  let ev0 := ensure_redirect_files rd
  match run_builtin o st cmd args true true with
  | some (st', r) =>
    let e1 := if r.stdout = [] then [] else write_bytes_output o r.stdout .Stdout rd
    let e2 := if r.stderr = [] then [] else write_bytes_output o r.stderr .Stderr rd
    (st', ev0 ++ e1 ++ e2, r.should_exit)
  | none =>
    match o.resolve cmd with
    | some _ =>
      let evOut := redirect_open_events rd.stdout
      let evErr := redirect_open_events rd.stderr
      if o.statusOk cmd args then
        (st, ev0 ++ evOut ++ evErr ++
          [Ev.spawnProc cmd args .inheritStream (wiring_of o rd.stdout) (wiring_of o rd.stderr)],
          false)
      else
        (st, ev0 ++ evOut ++ evErr ++ not_found_events o cmd rd, false)
    | none => (st, ev0 ++ not_found_events o cmd rd, false)

/-- One iteration of the REPL loop body of `main` (src/main.rs lines
744-803), from the read line to the executed command; the returned flag is
whether the loop breaks because of `should_exit`. -/
def process_line (o : Oracle) (st : ShellState) (input : List Char) :
    ShellState × List Ev × Bool :=
  if 1 < (split_pipeline (parse_line input)).length then
    ((execute_pipeline o st (split_pipeline (parse_line input))).1,
      (execute_pipeline o st (split_pipeline (parse_line input))).2, false)
  else
    match (parse_redirections ((split_pipeline (parse_line input)).getLast?.getD [])).1 with
    | [] => (st, [], false)
    | cmd :: args =>
      run_single_stage o st cmd args
        (parse_redirections ((split_pipeline (parse_line input)).getLast?.getD [])).2

/-- A fixed test oracle: empty HOME, nothing resolvable, chdir fails, opens
fail, spawns fail. -/
def oracle0 : Oracle :=
  ⟨none, fun _ => none, fun _ _ => none, fun _ _ => false, fun _ _ _ => none,
    fun _ _ => false, fun _ _ => false⟩

/-- A fixed test shell state. -/
def state0 : ShellState := ⟨"/".data⟩

/-- A mixed-pipeline stage that is guaranteed to produce a result: a builtin,
or an external that resolves and whose capture succeeds for every buffer. -/
def mixed_stage_ok (o : Oracle) (stage : PipelineStage) : Prop :=
  is_builtin_command stage.cmd = true ∨
    ((o.resolve stage.cmd).isSome = true ∧
      ∀ buf, (o.externCap stage.cmd stage.args buf).isSome = true)

/-- The events of one successfully spawned non-last pipeline stage: its
stderr wiring open and the spawn record with a piped stdout. -/
def spawn_ok_chunk (o : Oracle) (first : Bool) (s : PipelineStage) : List Ev :=
  redirect_open_events s.redirects.stderr ++
    [Ev.spawnProc s.cmd s.args (if first then .inheritStream else .pipedStream) .pipedStream
      (wiring_of o s.redirects.stderr)]

/-- The events of a run of successfully spawned non-last pipeline stages. -/
def spawn_ok_chunks (o : Oracle) : Bool → List PipelineStage → List Ev
  | _, [] => []
  | first, s :: rest => spawn_ok_chunk o first s ++ spawn_ok_chunks o false rest

/-- Oracle for the C7 counterexample: only the command `a` resolves; every
open and spawn succeeds. -/
def oracleC7 : Oracle :=
  ⟨none, fun c => if c = "a".data then some "/bin/a".data else none, fun _ _ => none,
    fun _ _ => true, fun _ _ _ => none, fun _ _ => true, fun _ _ => true⟩

/-- The tokenizer loop agrees with the tagged specification machine: the
source accumulator is the text of the tagged accumulator and the source
`current_quoted` flag is the disjunction of the tags. -/
theorem parse_line_aux_eq_spec (n : Nat) :
    ∀ (cs : List Char), cs.length ≤ n → ∀ (st : TokState) (tacc : List (Char × Bool)),
    parse_line_aux st cs (tacc.map Prod.fst) (tacc.any Prod.snd) = spec_tokenize_aux st cs tacc := by
  induction n with
  | zero =>
    intro cs hlen st tacc
    have hcs : cs = [] := List.length_eq_zero.mp (Nat.le_zero.mp hlen)
    subst hcs
    cases st <;> rw [parse_line_aux.eq_def, spec_tokenize_aux.eq_def] <;>
      rcases tacc with _ | ⟨p, t⟩ <;> simp
  | succ n ih =>
    intro cs hlen st tacc
    rcases cs with _ | ⟨c, rest⟩
    · cases st <;> rw [parse_line_aux.eq_def, spec_tokenize_aux.eq_def] <;>
        rcases tacc with _ | ⟨p, t⟩ <;> simp
    · have hrest : rest.length ≤ n := by simp at hlen; omega
      cases st with
      | Normal =>
        rw [parse_line_aux.eq_def, spec_tokenize_aux.eq_def]
        by_cases h1 : c = '\''
        · have h := ih rest hrest .Single tacc
          simp [h1, h]
        by_cases h2 : c = '"'
        · have h := ih rest hrest .Double tacc
          simp [h1, h2, h]
        by_cases h3 : c = '\\'
        · subst h3
          rcases rest with _ | ⟨d, rest2⟩
          · have h := ih [] (by omega) .Normal (tacc ++ [('\\', true)])
            simp at h
            simp [h1, h2, h]
          · have hr2 : rest2.length ≤ n := by simp at hrest; omega
            have h := ih rest2 hr2 .Normal (tacc ++ [(d, true)])
            simp at h
            simp [h1, h2, h]
        by_cases h4 : isRustWhitespace c
        · have h := ih rest hrest .Normal []
          simp at h
          rcases eq_or_ne tacc [] with h5 | h5
          · subst h5
            simp [h1, h2, h3, h4, h]
          · have h6 : tacc.map Prod.fst ≠ [] := by simpa using h5
            simp [h1, h2, h3, h4, h5, h6, h]
        · have h := ih rest hrest .Normal (tacc ++ [(c, false)])
          simp at h
          simp [h1, h2, h3, h4, h]
      | Single =>
        rw [parse_line_aux.eq_def, spec_tokenize_aux.eq_def]
        by_cases h1 : c = '\''
        · have h := ih rest hrest .Normal tacc
          simp [h1, h]
        · have h := ih rest hrest .Single (tacc ++ [(c, true)])
          simp at h
          simp [h1, h]
      | Double =>
        rw [parse_line_aux.eq_def, spec_tokenize_aux.eq_def]
        by_cases h1 : c = '"'
        · have h := ih rest hrest .Normal tacc
          simp [h1, h]
        by_cases h2 : c = '\\'
        · subst h2
          rcases rest with _ | ⟨d, rest2⟩
          · have h := ih [] (by omega) .Double (tacc ++ [('\\', true)])
            simp at h
            simp [h1, h]
          · have hr2 : rest2.length ≤ n := by simp at hrest; omega
            by_cases h3 : d = '"' || d = '\\'
            · have h := ih rest2 hr2 .Double (tacc ++ [(d, true)])
              simp at h
              simp [h1, h3, h]
            · have h := ih rest2 hr2 .Double (tacc ++ [('\\', true), (d, true)])
              simp at h
              simp [h1, h3, h]
        · have h := ih rest hrest .Double (tacc ++ [(c, true)])
          simp at h
          simp [h1, h2, h]

/-- Claim C2: for every input line the tokenizer `parse_line` behaves exactly
as the specified three-state machine (Normal, InSingle, InDouble): backslash
handling in Normal and InDouble, no escapes in single quotes, delimiters
consumed without being appended, flush on unquoted whitespace and at end of
input only when the accumulated text is non-empty, unterminated quotes
flushed without error, and each token's `quoted` flag true iff some character
of its text originated inside quotes or from backslash processing (the
specification machine `spec_tokenize` tags each appended character with
exactly that origin and sets `quoted` to the disjunction of the tags). -/
theorem C2_tokenizer_refines_spec_machine :
    ∀ input : List Char, parse_line input = spec_tokenize input := by
  intro input
  have h := parse_line_aux_eq_spec input.length input le_rfl .Normal []
  simpa [parse_line, spec_tokenize] using h

/-- The source operator recognizer agrees with the specification-side one:
checking equality first and proper-prefix-with-remainder second, per table
entry, is the same as taking the first table entry that is a prefix. -/
theorem parse_op_go_eq_spec (s : List Char) :
    ∀ ops, parse_op_go s ops = spec_op_go s ops := by
  intro ops
  induction ops with
  | nil => rfl
  | cons e ops ih =>
    obtain ⟨op, b, m⟩ := e
    by_cases h1 : s = op
    · subst h1
      simp [parse_op_go, spec_op_go, List.isPrefixOf_iff_prefix, List.drop_length]
    · by_cases h2 : op.isPrefixOf s ∧ op.length < s.length
      · simp [parse_op_go, spec_op_go, h1, h2, h2.1]
      · have h3 : op.isPrefixOf s = false := by
          by_contra hc
          have hb : op.isPrefixOf s = true := by
            revert hc; cases op.isPrefixOf s <;> simp
          have hp : op <+: s := List.isPrefixOf_iff_prefix.mp hb
          have hlt : op.length < s.length := by
            rcases Nat.lt_or_ge op.length s.length with h | h
            · exact h
            · exact absurd (hp.eq_of_length (Nat.le_antisymm hp.length_le h)).symm h1
          exact h2 ⟨hb, hlt⟩
        simp [parse_op_go, spec_op_go, h1, h2, h3, ih]

/-- Source `parse_op` agrees with the specification-side recognizer. -/
theorem parse_op_eq_spec (s : List Char) : parse_op s = spec_op s :=
  parse_op_go_eq_spec s redirect_ops

/-- The extraction loop agrees with the specification-side walk, up to the
reversed residual accumulator. -/
theorem parse_redirections_go_eq_spec (n : Nat) :
    ∀ ts : List ParsedToken, ts.length ≤ n → ∀ (args : List (List Char)) (rd : RedirectSpec),
    parse_redirections_go ts args rd =
      (args.reverse ++ (spec_extract ts rd).1, (spec_extract ts rd).2) := by
  induction n with
  | zero =>
    intro ts hlen args rd
    have hts : ts = [] := List.length_eq_zero.mp (Nat.le_zero.mp hlen)
    subst hts
    simp [parse_redirections_go, spec_extract]
  | succ n ih =>
    intro ts hlen args rd
    rcases ts with _ | ⟨t, rest⟩
    · simp [parse_redirections_go, spec_extract]
    · have hrest : rest.length ≤ n := by simp at hlen; omega
      rw [parse_redirections_go.eq_def, spec_extract.eq_def]
      by_cases hq : t.quoted
      · simp [hq, ih rest hrest]
      · have hpo := parse_op_eq_spec t.text
        rcases hop : spec_op t.text with _ | ⟨b, m, tail⟩
        · rw [hop] at hpo
          simp [hq, hpo, hop, ih rest hrest]
        · rw [hop] at hpo
          rcases htail : tail with _ | ⟨x, xs⟩
          · subst htail
            rcases rest with _ | ⟨next, rest2⟩
            · simp [hq, hpo, hop]
            · have hr2 : rest2.length ≤ n := by simp at hrest; omega
              simp [hq, hpo, hop, ih rest2 hr2]
          · subst htail
            simp [hq, hpo, hop, ih rest hrest]

/-- Claim C3: redirection extraction walks left-to-right treating unquoted
tokens that equal or begin with `1>>`, `2>>`, `>>`, `1>`, `2>`, `>` (longest
first) as operators; an exact operator consumes the next token's text as
target regardless of its quoted flag, an inline remainder is the target, an
exact operator that is last is kept as a literal argument, a quoted
operator-looking token is a literal argument, a later operator for the same
stream overwrites the earlier spec (`spec_redirections` is the walk written
from the specification's words); and the residual tokens form the argv of the
planned stage with argv[0] the command name. -/
theorem C3_redirection_extraction :
    (∀ tokens : List ParsedToken, parse_redirections tokens = spec_redirections tokens) ∧
    (∀ segment : List ParsedToken,
      build_pipeline_stages [segment] =
        match (parse_redirections segment).1 with
        | [] => []
        | cmd :: args => [⟨cmd, args, (parse_redirections segment).2⟩]) := by
  constructor
  · intro tokens
    have h := parse_redirections_go_eq_spec tokens.length tokens le_rfl [] ⟨none, none⟩
    simpa [parse_redirections, spec_redirections] using h
  · intro segment
    rw [build_pipeline_stages.eq_def]
    rcases h : (parse_redirections segment).1 with _ | ⟨cmd, args⟩ <;>
      simp [h, build_pipeline_stages]

/-- Source `spec_split` always returns at least one segment. -/
theorem spec_split_ne_nil : ∀ ts : List ParsedToken, spec_split ts ≠ [] := by
  intro ts
  induction ts with
  | nil => simp [spec_split]
  | cons t rest ih =>
    rw [spec_split.eq_def]
    by_cases hp : is_pipe_tok t
    · simp [hp]
    · rcases hs : spec_split rest with _ | ⟨seg, segs⟩
      · exact absurd hs ih
      · simp [hp, hs]

/-- The split loop agrees with the specification-side split, up to prefixing
the accumulated current segment. -/
theorem split_pipeline_go_eq_spec :
    ∀ (ts : List ParsedToken) (current : List ParsedToken),
    split_pipeline_go ts current =
      match spec_split ts with
      | [] => [current]
      | seg :: segs => (current ++ seg) :: segs := by
  intro ts
  induction ts with
  | nil => intro current; simp [split_pipeline_go, spec_split]
  | cons t rest ih =>
    intro current
    rw [split_pipeline_go.eq_def, spec_split.eq_def]
    rcases hs : spec_split rest with _ | ⟨seg, segs⟩
    · exact absurd hs (spec_split_ne_nil rest)
    · by_cases hp : is_pipe_tok t
      · have hp' : (!t.quoted && t.text = "|".data) = true := by simpa [is_pipe_tok] using hp
        simp [hp', hp, ih, hs]
      · have hp' : (!t.quoted && t.text = "|".data) = false := by simpa [is_pipe_tok] using hp
        simp [hp', hp, ih, hs]

/-- Every token of the tokenizer's output has non-empty text: tokens are
flushed only when the accumulator is non-empty. -/
theorem parse_line_aux_text_ne_nil (n : Nat) :
    ∀ cs : List Char, cs.length ≤ n →
    ∀ (st : TokState) (acc : List Char) (q : Bool) (t : ParsedToken),
    t ∈ parse_line_aux st cs acc q → t.text ≠ [] := by
  induction n with
  | zero =>
    intro cs hlen st acc q t ht
    have hcs : cs = [] := List.length_eq_zero.mp (Nat.le_zero.mp hlen)
    subst hcs
    by_cases ha : acc = []
    · cases st <;> rw [parse_line_aux.eq_def] at ht <;> simp [ha] at ht
    · cases st <;> rw [parse_line_aux.eq_def] at ht <;> simp [ha] at ht <;>
        (subst ht; simpa using ha)
  | succ n ih =>
    intro cs hlen st acc q t ht
    rcases cs with _ | ⟨c, rest⟩
    · by_cases ha : acc = []
      · cases st <;> rw [parse_line_aux.eq_def] at ht <;> simp [ha] at ht
      · cases st <;> rw [parse_line_aux.eq_def] at ht <;> simp [ha] at ht <;>
          (subst ht; simpa using ha)
    · have hrest : rest.length ≤ n := by simp at hlen; omega
      cases st with
      | Normal =>
        rw [parse_line_aux.eq_def] at ht
        by_cases h1 : c = '\''
        · simp only [h1] at ht; simp at ht; exact ih rest hrest _ _ _ t ht
        by_cases h2 : c = '"'
        · simp [h1, h2] at ht; exact ih rest hrest _ _ _ t ht
        by_cases h3 : c = '\\'
        · subst h3
          rcases rest with _ | ⟨d, rest2⟩
          · simp [h1, h2] at ht; exact ih [] (by omega) _ _ _ t ht
          · have hr2 : rest2.length ≤ n := by simp at hrest; omega
            simp [h1, h2] at ht; exact ih rest2 hr2 _ _ _ t ht
        by_cases h4 : isRustWhitespace c
        · by_cases ha : acc = []
          · simp [h1, h2, h3, h4, ha] at ht; exact ih rest hrest _ _ _ t ht
          · simp [h1, h2, h3, h4, ha] at ht
            rcases ht with ht | ht
            · subst ht; simpa using ha
            · exact ih rest hrest _ _ _ t ht
        · simp [h1, h2, h3, h4] at ht; exact ih rest hrest _ _ _ t ht
      | Single =>
        rw [parse_line_aux.eq_def] at ht
        by_cases h1 : c = '\''
        · simp [h1] at ht; exact ih rest hrest _ _ _ t ht
        · simp [h1] at ht; exact ih rest hrest _ _ _ t ht
      | Double =>
        rw [parse_line_aux.eq_def] at ht
        by_cases h1 : c = '"'
        · simp [h1] at ht; exact ih rest hrest _ _ _ t ht
        by_cases h2 : c = '\\'
        · subst h2
          rcases rest with _ | ⟨d, rest2⟩
          · simp [h1] at ht; exact ih [] (by omega) _ _ _ t ht
          · have hr2 : rest2.length ≤ n := by simp at hrest; omega
            by_cases h3 : d = '"' || d = '\\'
            · simp [h1, h3] at ht; exact ih rest2 hr2 _ _ _ t ht
            · simp [h1, h3] at ht; exact ih rest2 hr2 _ _ _ t ht
        · simp [h1, h2] at ht; exact ih rest hrest _ _ _ t ht

/-- Every token of every segment of the split came from the accumulated
current segment or from the input tokens. -/
theorem split_pipeline_go_mem :
    ∀ (ts : List ParsedToken) (cur seg : List ParsedToken),
    seg ∈ split_pipeline_go ts cur → ∀ t ∈ seg, t ∈ cur ∨ t ∈ ts := by
  intro ts
  induction ts with
  | nil =>
    intro cur seg hseg t ht
    simp [split_pipeline_go] at hseg
    subst hseg
    exact Or.inl ht
  | cons u rest ih =>
    intro cur seg hseg t ht
    rw [split_pipeline_go.eq_def] at hseg
    by_cases hp : (!u.quoted && u.text = "|".data) = true
    · simp [hp] at hseg
      rcases hseg with hseg | hseg
      · subst hseg; exact Or.inl ht
      · rcases ih [] seg hseg t ht with h | h
        · simp at h
        · exact Or.inr (List.mem_cons_of_mem u h)
    · simp [hp] at hseg
      rcases ih (cur ++ [u]) seg hseg t ht with h | h
      · rcases List.mem_append.mp h with h | h
        · exact Or.inl h
        · simp at h; subst h; exact Or.inr (List.mem_cons_self _ _)
      · exact Or.inr (List.mem_cons_of_mem u h)

/-- Every residual argument of the specification-side walk is the text of one
of the walked tokens. -/
theorem spec_extract_mem (n : Nat) :
    ∀ ts : List ParsedToken, ts.length ≤ n →
    ∀ (rd : RedirectSpec) (x : List Char),
    x ∈ (spec_extract ts rd).1 → ∃ t ∈ ts, x = t.text := by
  induction n with
  | zero =>
    intro ts hlen rd x hx
    have hts : ts = [] := List.length_eq_zero.mp (Nat.le_zero.mp hlen)
    subst hts
    simp [spec_extract] at hx
  | succ n ih =>
    intro ts hlen rd x hx
    rcases ts with _ | ⟨t, rest⟩
    · simp [spec_extract] at hx
    · have hrest : rest.length ≤ n := by simp at hlen; omega
      rw [spec_extract.eq_def] at hx
      have extend1 : (∃ u ∈ rest, x = u.text) → ∃ u ∈ t :: rest, x = u.text := by
        rintro ⟨u, hu, hx'⟩
        exact ⟨u, List.mem_cons_of_mem t hu, hx'⟩
      by_cases hq : t.quoted
      · simp [hq] at hx
        rcases hx with hx | hx
        · exact ⟨t, List.mem_cons_self t rest, hx⟩
        · exact extend1 (ih rest hrest rd x hx)
      · rcases hop : spec_op t.text with _ | ⟨b, m, tail⟩
        · simp [hq, hop] at hx
          rcases hx with hx | hx
          · exact ⟨t, List.mem_cons_self t rest, hx⟩
          · exact extend1 (ih rest hrest rd x hx)
        · rcases htail : tail with _ | ⟨y, ys⟩
          · subst htail
            rcases rest with _ | ⟨next, rest2⟩
            · simp [hq, hop] at hx
              exact ⟨t, List.mem_cons_self t [], hx⟩
            · have hr2 : rest2.length ≤ n := by simp at hrest; omega
              simp [hq, hop] at hx
              obtain ⟨u, hu, hx'⟩ := ih rest2 hr2 _ x hx
              exact ⟨u, by simp [hu], hx'⟩
          · subst htail
            simp [hq, hop] at hx
            exact extend1 (ih rest hrest _ x hx)

/-- Unfolding equation for `build_pipeline_stages` on a cons cell. -/
theorem build_pipeline_stages_cons (segment : List ParsedToken)
    (rest : List (List ParsedToken)) :
    build_pipeline_stages (segment :: rest) =
      match (parse_redirections segment).1 with
      | [] => build_pipeline_stages rest
      | cmd :: args =>
        ⟨cmd, args, (parse_redirections segment).2⟩ :: build_pipeline_stages rest := rfl

/-- Every planned stage's command name is a residual argument of its
segment's extraction. -/
theorem build_pipeline_stages_cmd_mem :
    ∀ (segs : List (List ParsedToken)) (stage : PipelineStage),
    stage ∈ build_pipeline_stages segs →
    ∃ seg ∈ segs, stage.cmd ∈ (parse_redirections seg).1 := by
  intro segs
  induction segs with
  | nil => intro stage h; simp [build_pipeline_stages] at h
  | cons seg rest ih =>
    intro stage h
    rw [build_pipeline_stages_cons] at h
    rcases hres : (parse_redirections seg).1 with _ | ⟨cmd, args⟩
    · rw [hres] at h
      obtain ⟨seg', hseg', hcmd⟩ := ih stage h
      exact ⟨seg', List.mem_cons_of_mem seg hseg', hcmd⟩
    · rw [hres] at h
      rcases List.mem_cons.mp h with h | h
      · subst h
        exact ⟨seg, List.mem_cons_self seg rest, by simp [hres]⟩
      · obtain ⟨seg', hseg', hcmd⟩ := ih stage h
        exact ⟨seg', List.mem_cons_of_mem seg hseg', hcmd⟩

/-- Claim C4: exactly the unquoted `|` tokens separate pipeline stages
(`spec_split` is the split written from the specification's words); segments
left empty by leading, trailing, or adjacent pipes are discarded during stage
construction rather than reported as errors; and every planner-produced stage
has a non-empty command string. -/
theorem C4_pipeline_split_and_stages :
    (∀ tokens : List ParsedToken, split_pipeline tokens = spec_split tokens) ∧
    (∀ segs : List (List ParsedToken),
      build_pipeline_stages segs = build_pipeline_stages (segs.filter (fun s => !s.isEmpty))) ∧
    (∀ (input : List Char) (stage : PipelineStage),
      stage ∈ build_pipeline_stages (split_pipeline (parse_line input)) → stage.cmd ≠ []) := by
  refine ⟨?_, ?_, ?_⟩
  · intro tokens
    have h := split_pipeline_go_eq_spec tokens []
    rcases hs : spec_split tokens with _ | ⟨seg, segs⟩
    · exact absurd hs (spec_split_ne_nil tokens)
    · rw [hs] at h
      simpa [split_pipeline, hs] using h
  · intro segs
    induction segs with
    | nil => rfl
    | cons seg rest ih =>
      rcases seg with _ | ⟨t, ts⟩
      · have h0 : parse_redirections ([] : List ParsedToken) = ([], ⟨none, none⟩) := rfl
        have hf : List.filter (fun s => !s.isEmpty) (([] : List ParsedToken) :: rest) =
            List.filter (fun s => !s.isEmpty) rest := by simp
        rw [hf, build_pipeline_stages.eq_def]
        simp [h0, ih]
      · have hf : List.filter (fun s => !s.isEmpty) ((t :: ts) :: rest) =
            (t :: ts) :: List.filter (fun s => !s.isEmpty) rest := by simp
        rw [hf, build_pipeline_stages.eq_def]
        conv_rhs => rw [build_pipeline_stages.eq_def]
        rcases h : (parse_redirections (t :: ts)).1 with _ | ⟨cmd, args⟩ <;> simp [h, ih]
  · intro input stage hstage
    obtain ⟨seg, hseg, hcmd⟩ := build_pipeline_stages_cmd_mem _ stage hstage
    have hpr : parse_redirections seg = parse_redirections_go seg [] ⟨none, none⟩ := rfl
    rw [hpr, parse_redirections_go_eq_spec seg.length seg le_rfl [] ⟨none, none⟩] at hcmd
    simp only [List.reverse_nil, List.nil_append] at hcmd
    obtain ⟨t, ht, hx⟩ := spec_extract_mem seg.length seg le_rfl ⟨none, none⟩ stage.cmd hcmd
    rcases split_pipeline_go_mem (parse_line input) [] seg hseg t ht with h | h
    · simp at h
    · rw [hx]
      exact parse_line_aux_text_ne_nil input.length input le_rfl .Normal [] false t h

/-- Witness for C4: the single stage planned for `echo hi` has the non-empty
command name `echo`. -/
theorem C4_pipeline_split_and_stages_witness :
    (⟨"echo".data, ["hi".data], ⟨none, none⟩⟩ : PipelineStage).cmd ≠ [] :=
  C4_pipeline_split_and_stages.2.2 "echo hi".data ⟨"echo".data, ["hi".data], ⟨none, none⟩⟩
    (by decide)

/-- A non-builtin command name makes `run_builtin` return `none`. -/
theorem run_builtin_none_of_not_builtin (o : Oracle) (st : ShellState) (c : List Char)
    (a : List (List Char)) (e d : Bool) (h : is_builtin_command c = false) :
    run_builtin o st c a e d = none := by
  simp only [is_builtin_command, Bool.or_eq_false_iff, decide_eq_false_iff_not] at h
  obtain ⟨⟨⟨⟨h1, h2⟩, h3⟩, h4⟩, h5⟩ := h
  simp [run_builtin, h1, h2, h3, h4, h5]

/-- A builtin command name makes `run_builtin` return a result. -/
theorem run_builtin_isSome_of_builtin (o : Oracle) (st : ShellState) (c : List Char)
    (a : List (List Char)) (e d : Bool) (h : is_builtin_command c = true) :
    (run_builtin o st c a e d).isSome = true := by
  simp only [is_builtin_command, Bool.or_eq_true, decide_eq_true_eq] at h
  rcases h with (((h | h) | h) | h) | h <;> subst h
  · simp [run_builtin, (by decide : ¬("echo".data = "exit".data))]
  · simp [run_builtin]
  · simp [run_builtin, (by decide : ¬("type".data = "exit".data)),
      (by decide : ¬("type".data = "echo".data)), (by decide : ¬("type".data = "pwd".data)),
      (by decide : ¬("type".data = "cd".data))]
    rcases ha : a.head? with _ | q
    · simp
    · by_cases hq : is_builtin_command q
      · simp [hq]
      · simp [hq]
        rcases hr : o.resolve q with _ | p <;> simp
  · simp [run_builtin, (by decide : ¬("pwd".data = "exit".data)),
      (by decide : ¬("pwd".data = "echo".data))]
  · simp [run_builtin, (by decide : ¬("cd".data = "exit".data)),
      (by decide : ¬("cd".data = "echo".data)), (by decide : ¬("cd".data = "pwd".data))]
    cases d
    · simp
    · rcases ha : a.head? with _ | target
      · simp
      · by_cases ht : target = "~".data
        · simp [ht]
          rcases hh : o.home with _ | home
          · simp
          · rcases hc : o.chdir st.cwd home with _ | nc <;> simp [hc]
        · simp [ht]
          rcases hc : o.chdir st.cwd target with _ | nc <;> simp [hc]

/-- Source `should_exit` of a builtin result is exactly `exit` with `allow_exit`. -/
theorem run_builtin_should_exit_shape (o : Oracle) (st : ShellState) (c : List Char)
    (a : List (List Char)) (e d : Bool) (st' : ShellState) (r : CommandResult)
    (hrun : run_builtin o st c a e d = some (st', r)) :
    r.should_exit = (decide (c = "exit".data) && e) := by
  by_cases h1 : c = "exit".data
  · subst h1
    simp [run_builtin] at hrun
    rcases hrun with ⟨-, hr⟩
    simp [← hr]
  by_cases h2 : c = "echo".data
  · subst h2
    simp [run_builtin, h1] at hrun
    rcases hrun with ⟨-, hr⟩
    simp [← hr, h1]
  by_cases h3 : c = "pwd".data
  · subst h3
    simp [run_builtin, h1, h2] at hrun
    rcases hrun with ⟨-, hr⟩
    simp [← hr, h1]
  by_cases h4 : c = "cd".data
  · subst h4
    simp [run_builtin, h1, h2, h3] at hrun
    have hd : (decide ("cd".data = "exit".data)) = false := by decide
    rw [hd]
    simp only [Bool.false_and]
    split at hrun
    all_goals try split at hrun
    all_goals try split at hrun
    all_goals try split at hrun
    all_goals simp_all
    all_goals (rcases hrun with ⟨-, hr⟩; rw [← hr])
  by_cases h5 : c = "type".data
  · subst h5
    simp [run_builtin, h1, h2, h3, h4] at hrun
    have hd : (decide ("type".data = "exit".data)) = false := by decide
    rw [hd]
    simp only [Bool.false_and]
    split at hrun
    all_goals try split at hrun
    all_goals try split at hrun
    all_goals simp_all
    all_goals (rcases hrun with ⟨-, hr⟩; rw [← hr])
  · rw [run_builtin_none_of_not_builtin o st c a e d (by simp [is_builtin_command, h1, h2, h3, h4, h5])] at hrun
    exact absurd hrun (by simp)

/-- With `apply_cd = false` the builtin leaves the shell state unchanged. -/
theorem run_builtin_state_of_no_cd (o : Oracle) (st : ShellState) (c : List Char)
    (a : List (List Char)) (e : Bool) (st' : ShellState) (r : CommandResult)
    (hrun : run_builtin o st c a e false = some (st', r)) : st' = st := by
  by_cases h1 : c = "exit".data
  · subst h1; simp [run_builtin] at hrun; exact hrun.1.symm
  by_cases h2 : c = "echo".data
  · subst h2; simp [run_builtin, h1] at hrun; exact hrun.1.symm
  by_cases h3 : c = "pwd".data
  · subst h3; simp [run_builtin, h1, h2] at hrun; exact hrun.1.symm
  by_cases h4 : c = "cd".data
  · subst h4
    simp [run_builtin, h1, h2, h3] at hrun
    exact hrun.1.symm
  by_cases h5 : c = "type".data
  · subst h5
    simp [run_builtin, h1, h2, h3, h4] at hrun
    split at hrun
    all_goals try split at hrun
    all_goals try split at hrun
    all_goals simp_all
  · rw [run_builtin_none_of_not_builtin o st c a e false (by simp [is_builtin_command, h1, h2, h3, h4, h5])] at hrun
    exact absurd hrun (by simp)

/-- Unfolding equation for the mixed pipeline on a cons cell. -/
theorem execute_mixed_cons (o : Oracle) (st : ShellState) (buf : List Char)
    (stage : PipelineStage) (rest : List PipelineStage) :
    execute_mixed_pipeline o st buf (stage :: rest) =
      match mixed_step o st buf stage with
      | some (st', r) =>
        if rest.isEmpty then
          (st', ensure_redirect_files stage.redirects ++
            (if r.stderr = [] then [] else
              write_bytes_output o r.stderr .Stderr stage.redirects) ++
            write_bytes_output o r.stdout .Stdout stage.redirects)
        else
          ((execute_mixed_pipeline o st' r.stdout rest).1,
            ensure_redirect_files stage.redirects ++
              (if r.stderr = [] then [] else
                write_bytes_output o r.stderr .Stderr stage.redirects) ++
              (execute_mixed_pipeline o st' r.stdout rest).2)
      | none =>
        (st, ensure_redirect_files stage.redirects ++
          not_found_events o stage.cmd stage.redirects) := rfl

/-- A mixed-pipeline step never moves the shell state. -/
theorem mixed_step_state (o : Oracle) (st : ShellState) (buf : List Char)
    (stage : PipelineStage) (st' : ShellState) (r : CommandResult)
    (h : mixed_step o st buf stage = some (st', r)) : st' = st := by
  unfold mixed_step at h
  rcases hb : run_builtin o st stage.cmd stage.args false false with _ | ⟨pst, pr⟩
  · rw [hb] at h
    by_cases hr : (o.resolve stage.cmd).isNone
    · simp [hr] at h
    · simp only [hr, Bool.false_eq_true, if_false, ite_false] at h
      rcases hc : run_external_capture o stage buf with _ | r'
      · rw [hc] at h; simp at h
      · rw [hc] at h
        simp at h
        exact h.1.symm
  · rw [hb] at h
    simp at h
    rcases h with ⟨h1, -⟩
    subst h1
    exact run_builtin_state_of_no_cd o st stage.cmd stage.args false _ _ hb

/-- The mixed pipeline leaves the shell state unchanged: builtins run with
`apply_cd = false` and externals cannot move the shell's cwd. -/
theorem execute_mixed_state (o : Oracle) :
    ∀ (stages : List PipelineStage) (st : ShellState) (buf : List Char),
    (execute_mixed_pipeline o st buf stages).1 = st := by
  intro stages
  induction stages with
  | nil => intro st buf; rfl
  | cons stage rest ih =>
    intro st buf
    rw [execute_mixed_cons]
    rcases hs : mixed_step o st buf stage with _ | ⟨st', r⟩
    · rfl
    · have hst := mixed_step_state o st buf stage st' r hs
      subst hst
      by_cases hrest : rest.isEmpty
      · simp [hrest]
      · simp [hrest, ih]

/-- A builtin stage's mixed-pipeline step is exactly `run_builtin` with
`allow_exit = false`, `apply_cd = false`, independent of the buffer. -/
theorem mixed_step_of_builtin (o : Oracle) (st : ShellState) (buf : List Char)
    (stage : PipelineStage) (h : is_builtin_command stage.cmd = true) :
    mixed_step o st buf stage = run_builtin o st stage.cmd stage.args false false := by
  unfold mixed_step
  rcases hb : run_builtin o st stage.cmd stage.args false false with _ | p
  · have hsome := run_builtin_isSome_of_builtin o st stage.cmd stage.args false false h
    rw [hb] at hsome
    simp at hsome
  · rfl

/-- Source `split_pipeline` always returns at least one segment. -/
theorem split_pipeline_ne_nil (ts : List ParsedToken) : split_pipeline ts ≠ [] := by
  have h := split_pipeline_go_eq_spec ts []
  rcases hs : spec_split ts with _ | ⟨seg, segs⟩
  · exact absurd hs (spec_split_ne_nil ts)
  · rw [hs] at h
    intro hc
    rw [split_pipeline, h] at hc
    simp at hc

/-- Only the `exit` builtin can raise the single-stage exit flag. -/
theorem run_single_stage_exit (o : Oracle) (st : ShellState) (cmd : List Char)
    (args : List (List Char)) (rd : RedirectSpec)
    (h : (run_single_stage o st cmd args rd).2.2 = true) : cmd = "exit".data := by
  unfold run_single_stage at h
  rcases hb : run_builtin o st cmd args true true with _ | ⟨st', r⟩
  · rw [hb] at h
    rcases hr : o.resolve cmd with _ | p
    · rw [hr] at h
      simp at h
    · rw [hr] at h
      by_cases hso : o.statusOk cmd args
      · simp [hso] at h
      · simp [hso] at h
  · rw [hb] at h
    have hx : r.should_exit = true := by simpa using h
    have hs := run_builtin_should_exit_shape o st cmd args true true st' r hb
    rw [hx] at hs
    simp at hs
    exact hs

/-- Claim C5: in the mixed (buffered) pipeline, every builtin stage runs with
`allow_exit=false` and `apply_cd=false`, receiving no stdin from the
inter-stage buffer: with `allow_exit=false` no builtin result sets
`should_exit` (the shell keeps running), the mixed pipeline never changes the
current directory, a leading builtin stage's whole execution is independent
of the incoming buffer, and the REPL iteration's exit flag can be raised only
when the line plans to a single segment whose command is `exit` (no pipe on
the line). -/
theorem C5_pipeline_builtin_discipline :
    (∀ (o : Oracle) (st : ShellState) (buf : List Char) (stages : List PipelineStage),
      (execute_mixed_pipeline o st buf stages).1 = st) ∧
    (∀ (o : Oracle) (st : ShellState) (cmd : List Char) (args : List (List Char)) (d : Bool)
      (st' : ShellState) (r : CommandResult),
      run_builtin o st cmd args false d = some (st', r) → r.should_exit = false) ∧
    (∀ (o : Oracle) (st : ShellState) (stage : PipelineStage) (rest : List PipelineStage)
      (buf1 buf2 : List Char),
      is_builtin_command stage.cmd = true →
      execute_mixed_pipeline o st buf1 (stage :: rest) =
        execute_mixed_pipeline o st buf2 (stage :: rest)) ∧
    (∀ (o : Oracle) (st : ShellState) (input : List Char),
      (process_line o st input).2.2 = true →
      (split_pipeline (parse_line input)).length = 1 ∧
      (parse_redirections ((split_pipeline (parse_line input)).getLast?.getD [])).1.head? =
        some "exit".data) := by
  refine ⟨?_, ?_, ?_, ?_⟩
  · intro o st buf stages
    exact execute_mixed_state o stages st buf
  · intro o st cmd args d st' r h
    have hs := run_builtin_should_exit_shape o st cmd args false d st' r h
    simpa using hs
  · intro o st stage rest buf1 buf2 h
    rw [execute_mixed_cons, execute_mixed_cons, mixed_step_of_builtin o st buf1 stage h,
      mixed_step_of_builtin o st buf2 stage h]
  · intro o st input h
    unfold process_line at h
    by_cases hlen : 1 < (split_pipeline (parse_line input)).length
    · rw [if_pos hlen] at h
      simp at h
    · rw [if_neg hlen] at h
      rcases hres :
          (parse_redirections ((split_pipeline (parse_line input)).getLast?.getD [])).1 with
        _ | ⟨cmd, args⟩
      · rw [hres] at h
        simp at h
      · rw [hres] at h
        have hcmd := run_single_stage_exit o st cmd args _ h
        constructor
        · have hpos : 0 < (split_pipeline (parse_line input)).length :=
            List.length_pos.mpr (split_pipeline_ne_nil _)
          omega
        · rw [hcmd]
          rfl

/-- Witness for C5 at concrete inputs: an `exit`-only mixed pipeline keeps
the state, `exit` in a pipeline reports `should_exit = false`, a leading
`echo` stage ignores two different buffers, and the line `exit` raises the
exit flag with a single `exit` segment. -/
theorem C5_pipeline_builtin_discipline_witness :
    (execute_mixed_pipeline oracle0 state0 [] [⟨"exit".data, [], ⟨none, none⟩⟩]).1 = state0 ∧
    (⟨[], [], false⟩ : CommandResult).should_exit = false ∧
    execute_mixed_pipeline oracle0 state0 "x".data [⟨"echo".data, ["hi".data], ⟨none, none⟩⟩] =
      execute_mixed_pipeline oracle0 state0 "y".data
        [⟨"echo".data, ["hi".data], ⟨none, none⟩⟩] ∧
    ((split_pipeline (parse_line "exit".data)).length = 1 ∧
      (parse_redirections
        ((split_pipeline (parse_line "exit".data)).getLast?.getD [])).1.head? =
        some "exit".data) := by
  refine ⟨?_, ?_, ?_, ?_⟩
  · exact C5_pipeline_builtin_discipline.1 oracle0 state0 [] _
  · exact C5_pipeline_builtin_discipline.2.1 oracle0 state0 "exit".data [] false state0
      ⟨[], [], false⟩ (by decide)
  · exact C5_pipeline_builtin_discipline.2.2.1 oracle0 state0
      ⟨"echo".data, ["hi".data], ⟨none, none⟩⟩ [] "x".data "y".data (by decide)
  · exact C5_pipeline_builtin_discipline.2.2.2 oracle0 state0 "exit".data (by decide)

/-- Claim C9: the `cd` builtin with `apply_cd = true`: no argument does
nothing and emits nothing; the exact argument `~` resolves to HOME, and when
HOME is unset the error names the original `~`; any other argument (including
`~/x`) is taken verbatim; the directory change is attempted through the
operating system and on failure exactly `cd: <target>: No such file or
directory` followed by a newline is placed on stderr. -/
theorem C9_cd_builtin :
    (∀ (o : Oracle) (st : ShellState) (e : Bool),
      run_builtin o st "cd".data [] e true = some (st, ⟨[], [], false⟩)) ∧
    (∀ (o : Oracle) (st : ShellState) (args : List (List Char)) (e : Bool),
      args.head? = some "~".data → o.home = none →
      run_builtin o st "cd".data args e true = some (st, ⟨[], cd_err_msg "~".data, false⟩)) ∧
    (∀ (o : Oracle) (st : ShellState) (args : List (List Char)) (e : Bool) (home : List Char),
      args.head? = some "~".data → o.home = some home →
      run_builtin o st "cd".data args e true =
        (match o.chdir st.cwd home with
         | some newCwd => some (⟨newCwd⟩, ⟨[], [], false⟩)
         | none => some (st, ⟨[], cd_err_msg "~".data, false⟩))) ∧
    (∀ (o : Oracle) (st : ShellState) (args : List (List Char)) (e : Bool) (t : List Char),
      args.head? = some t → t ≠ "~".data →
      run_builtin o st "cd".data args e true =
        (match o.chdir st.cwd t with
         | some newCwd => some (⟨newCwd⟩, ⟨[], [], false⟩)
         | none => some (st, ⟨[], cd_err_msg t, false⟩))) := by
  refine ⟨?_, ?_, ?_, ?_⟩
  · intro o st e
    simp [run_builtin, (by decide : ¬("cd".data = "exit".data)),
      (by decide : ¬("cd".data = "echo".data)), (by decide : ¬("cd".data = "pwd".data))]
  · intro o st args e hhead hhome
    simp [run_builtin, (by decide : ¬("cd".data = "exit".data)),
      (by decide : ¬("cd".data = "echo".data)), (by decide : ¬("cd".data = "pwd".data)),
      hhead, hhome]
  · intro o st args e home hhead hhome
    rcases hc : o.chdir st.cwd home with _ | nc <;>
      simp [run_builtin, (by decide : ¬("cd".data = "exit".data)),
        (by decide : ¬("cd".data = "echo".data)), (by decide : ¬("cd".data = "pwd".data)),
        hhead, hhome, hc]
  · intro o st args e t hhead ht
    rcases hc : o.chdir st.cwd t with _ | nc <;>
      simp [run_builtin, (by decide : ¬("cd".data = "exit".data)),
        (by decide : ¬("cd".data = "echo".data)), (by decide : ¬("cd".data = "pwd".data)),
        hhead, ht, hc]

/-- Witness for C9 at concrete inputs: with HOME unset, `cd ~` reports the
error naming `~`; `cd ~/x` attempts the literal path `~/x` and reports it. -/
theorem C9_cd_builtin_witness :
    run_builtin oracle0 state0 "cd".data ["~".data] false true =
      some (state0, ⟨[], cd_err_msg "~".data, false⟩) ∧
    run_builtin oracle0 state0 "cd".data ["~/x".data] false true =
      some (state0, ⟨[], cd_err_msg "~/x".data, false⟩) := by
  constructor
  · exact C9_cd_builtin.2.1 oracle0 state0 ["~".data] false (by decide) (by decide)
  · have h := C9_cd_builtin.2.2.2 oracle0 state0 ["~/x".data] false "~/x".data
      (by decide) (by decide)
    rw [h]
    rfl

/-- Claim C10: `run_builtin` answers exactly for the five builtin names
(`echo`, `exit`, `type`, `pwd`, `cd`), and a planned pipeline takes the
all-external fast path iff none of its stage commands is a builtin, the mixed
buffered path otherwise. -/
theorem C10_builtin_dispatch :
    (∀ (o : Oracle) (st : ShellState) (c : List Char) (a : List (List Char)) (e d : Bool),
      (run_builtin o st c a e d).isSome = is_builtin_command c) ∧
    (∀ (o : Oracle) (st : ShellState) (segments : List (List ParsedToken)),
      (build_pipeline_stages segments).isEmpty = false →
      (((build_pipeline_stages segments).all (fun s => !is_builtin_command s.cmd) = true →
        execute_pipeline o st segments =
          (st, execute_external_pipeline o (build_pipeline_stages segments))) ∧
       ((build_pipeline_stages segments).all (fun s => !is_builtin_command s.cmd) = false →
        execute_pipeline o st segments =
          execute_mixed_pipeline o st [] (build_pipeline_stages segments)))) := by
  constructor
  · intro o st c a e d
    rcases hb : is_builtin_command c with _ | _
    · rw [run_builtin_none_of_not_builtin o st c a e d hb]
      rfl
    · exact run_builtin_isSome_of_builtin o st c a e d hb
  · intro o st segments hne
    constructor
    · intro hall
      unfold execute_pipeline
      rw [hne, hall]
      rfl
    · intro hsome
      unfold execute_pipeline
      rw [hne, hsome]
      rfl

/-- Witness for C10 at concrete inputs: the segments of `echo hi | foo` build
stages containing a builtin and dispatch to the mixed path. -/
theorem C10_builtin_dispatch_witness :
    (run_builtin oracle0 state0 "ls".data [] true true).isSome =
      is_builtin_command "ls".data ∧
    execute_pipeline oracle0 state0
        [[⟨"echo".data, false⟩, ⟨"hi".data, false⟩], [⟨"foo".data, false⟩]] =
      execute_mixed_pipeline oracle0 state0 []
        (build_pipeline_stages
          [[⟨"echo".data, false⟩, ⟨"hi".data, false⟩], [⟨"foo".data, false⟩]]) := by
  constructor
  · exact C10_builtin_dispatch.1 oracle0 state0 "ls".data [] true true
  · exact (C10_builtin_dispatch.2 oracle0 state0
      [[⟨"echo".data, false⟩, ⟨"hi".data, false⟩], [⟨"foo".data, false⟩]] (by decide)).2
      (by decide)

/-- The verification phase with a prefix of resolvable stages followed by an
unresolvable one: the prefix's files are ensured, then the diagnostic on the
failing stage's stdout destination, and verification reports failure. -/
theorem external_verify_fail (o : Oracle) :
    ∀ (pre : List PipelineStage) (stage : PipelineStage) (post : List PipelineStage),
    (∀ s ∈ pre, (o.resolve s.cmd).isSome = true) → o.resolve stage.cmd = none →
    external_verify o (pre ++ stage :: post) =
      (pre.flatMap (fun s => ensure_redirect_files s.redirects) ++
        not_found_events o stage.cmd stage.redirects, false) := by
  intro pre
  induction pre with
  | nil =>
    intro stage post hpre hfail
    simp [external_verify, hfail]
  | cons s pre ih =>
    intro stage post hpre hfail
    have hs : (o.resolve s.cmd).isSome = true := hpre s (List.mem_cons_self s pre)
    have hs' : (o.resolve s.cmd).isNone = false := by
      rcases hr : o.resolve s.cmd with _ | p
      · rw [hr] at hs; simp at hs
      · rfl
    rw [List.cons_append, external_verify.eq_def]
    simp only [hs', Bool.false_eq_true, if_false, ite_false]
    rw [ih stage post (fun x hx => hpre x (List.mem_cons_of_mem s hx)) hfail]
    simp

/-- The verification phase with every stage resolvable: all redirect files
are ensured and verification reports success. -/
theorem external_verify_ok (o : Oracle) :
    ∀ stages : List PipelineStage,
    (∀ s ∈ stages, (o.resolve s.cmd).isSome = true) →
    external_verify o stages =
      (stages.flatMap (fun s => ensure_redirect_files s.redirects), true) := by
  intro stages
  induction stages with
  | nil => intro h; rfl
  | cons s rest ih =>
    intro h
    have hs : (o.resolve s.cmd).isSome = true := h s (List.mem_cons_self s rest)
    have hs' : (o.resolve s.cmd).isNone = false := by
      rcases hr : o.resolve s.cmd with _ | p
      · rw [hr] at hs; simp at hs
      · rfl
    rw [external_verify.eq_def]
    simp only [hs', Bool.false_eq_true, if_false, ite_false]
    rw [ih (fun x hx => h x (List.mem_cons_of_mem s hx))]
    simp

/-- The spawn phase with a prefix of successful spawns followed by a failing
one: the prefix's chunks, the failing stage's wiring opens, and the
diagnostic on the failing stage's stdout destination. -/
theorem external_spawn_fail (o : Oracle) :
    ∀ (pre : List PipelineStage) (first : Bool) (stage : PipelineStage)
      (post : List PipelineStage),
    (∀ s ∈ pre, o.spawnOk s.cmd s.args = true) → o.spawnOk stage.cmd stage.args = false →
    external_spawn o first (pre ++ stage :: post) =
      spawn_ok_chunks o first pre ++
        (if post.isEmpty then redirect_open_events stage.redirects.stdout else []) ++
        redirect_open_events stage.redirects.stderr ++
        not_found_events o stage.cmd stage.redirects := by
  intro pre
  induction pre with
  | nil =>
    intro first stage post hpre hfail
    rw [List.nil_append, external_spawn.eq_def]
    simp only [hfail, Bool.false_eq_true, if_false, ite_false, spawn_ok_chunks]
    by_cases hpost : post.isEmpty <;> simp [hpost]
  | cons s pre ih =>
    intro first stage post hpre hfail
    have hs : o.spawnOk s.cmd s.args = true := hpre s (List.mem_cons_self s pre)
    rw [List.cons_append, external_spawn.eq_def]
    have hne : (pre ++ stage :: post).isEmpty = false := by
      rcases pre with _ | ⟨x, xs⟩ <;> rfl
    simp only [hne, hs, Bool.false_eq_true, if_false, ite_false, if_true, ite_true]
    rw [ih false stage post (fun x hx => hpre x (List.mem_cons_of_mem s hx)) hfail]
    simp [spawn_ok_chunks, spawn_ok_chunk]

/-- A stage satisfying `mixed_stage_ok` produces a step result. -/
theorem mixed_step_isSome_of_ok (o : Oracle) (st : ShellState) (buf : List Char)
    (stage : PipelineStage) (h : mixed_stage_ok o stage) :
    (mixed_step o st buf stage).isSome = true := by
  unfold mixed_step
  rcases hb : run_builtin o st stage.cmd stage.args false false with _ | p
  · rcases h with h | ⟨hres, hcap⟩
    · have hsome := run_builtin_isSome_of_builtin o st stage.cmd stage.args false false h
      rw [hb] at hsome
      simp at hsome
    · have hres' : (o.resolve stage.cmd).isNone = false := by
        rcases hr : o.resolve stage.cmd with _ | p
        · rw [hr] at hres; simp at hres
        · rfl
      simp only [hres', Bool.false_eq_true, if_false, ite_false]
      rcases hc : o.externCap stage.cmd stage.args buf with _ | ⟨out, err⟩
      · have := hcap buf
        rw [hc] at this
        simp at this
      · simp [run_external_capture, hc]
  · rfl

/-- A failing stage after a run of good stages in the mixed pipeline: some
prefix of events, then the failing stage's ensured files, then the diagnostic
on the failing stage's stdout destination, and the pipeline stops. -/
theorem execute_mixed_fail (o : Oracle) :
    ∀ (pre : List PipelineStage) (st : ShellState) (buf : List Char)
      (stage : PipelineStage) (post : List PipelineStage),
    (∀ s ∈ pre, mixed_stage_ok o s) → is_builtin_command stage.cmd = false →
    (o.resolve stage.cmd = none ∨ ∀ b, o.externCap stage.cmd stage.args b = none) →
    ∃ evs, (execute_mixed_pipeline o st buf (pre ++ stage :: post)).2 =
      evs ++ ensure_redirect_files stage.redirects ++
        not_found_events o stage.cmd stage.redirects := by
  intro pre
  induction pre with
  | nil =>
    intro st buf stage post hpre hnb hfail
    refine ⟨[], ?_⟩
    rw [List.nil_append, execute_mixed_cons]
    have hstep : mixed_step o st buf stage = none := by
      unfold mixed_step
      rw [run_builtin_none_of_not_builtin o st stage.cmd stage.args false false hnb]
      rcases hfail with hfail | hfail
      · simp [hfail]
      · rcases hr : o.resolve stage.cmd with _ | p
        · simp
        · simp [run_external_capture, hfail buf]
    rw [hstep]
    simp
  | cons s pre ih =>
    intro st buf stage post hpre hnb hfail
    have hs := mixed_step_isSome_of_ok o st buf s (hpre s (List.mem_cons_self s pre))
    rcases hstep : mixed_step o st buf s with _ | ⟨st', r⟩
    · rw [hstep] at hs; simp at hs
    · rw [List.cons_append, execute_mixed_cons, hstep]
      have hne : (pre ++ stage :: post).isEmpty = false := by
        rcases pre with _ | ⟨x, xs⟩ <;> rfl
      simp only [hne, Bool.false_eq_true, if_false, ite_false]
      obtain ⟨evs, hevs⟩ :=
        ih st' r.stdout stage post (fun x hx => hpre x (List.mem_cons_of_mem s hx)) hnb hfail
      refine ⟨ensure_redirect_files s.redirects ++
        (if r.stderr = [] then [] else write_bytes_output o r.stderr .Stderr s.redirects) ++
        evs, ?_⟩
      rw [hevs]
      simp

/-- Claim C6: whenever a stage's command is neither a builtin nor resolvable,
or spawning the resolved command fails, exactly the string
`<cmd>: command not found` followed by a newline is emitted through the
stage's stdout destination (the stdout redirect file when one is specified
and opens, the real stdout otherwise) and never through stderr — in the
single-stage path (lookup miss and status failure), the all-external pipeline
path (lookup miss during verification and spawn failure), and the mixed
pipeline path (lookup miss and capture failure). -/
theorem C6_not_found_routing :
    (∀ (o : Oracle) (cmd : List Char) (rd : RedirectSpec),
      (rd.stdout = none → not_found_events o cmd rd = [Ev.stdoutWrite (not_found_msg cmd)]) ∧
      (∀ p m, rd.stdout = some (p, m) → o.openOk p m = true →
        not_found_events o cmd rd =
          [Ev.openAttempt p m, Ev.fileWrite p m (not_found_msg cmd)]) ∧
      (∀ e ∈ not_found_events o cmd rd, ∀ b, e ≠ Ev.stderrWrite b)) ∧
    (∀ (o : Oracle) (st : ShellState) (cmd : List Char) (args : List (List Char))
      (rd : RedirectSpec),
      is_builtin_command cmd = false → o.resolve cmd = none →
      run_single_stage o st cmd args rd =
        (st, ensure_redirect_files rd ++ not_found_events o cmd rd, false)) ∧
    (∀ (o : Oracle) (st : ShellState) (cmd : List Char) (args : List (List Char))
      (rd : RedirectSpec),
      is_builtin_command cmd = false → (o.resolve cmd).isSome = true →
      o.statusOk cmd args = false →
      run_single_stage o st cmd args rd =
        (st, ensure_redirect_files rd ++ redirect_open_events rd.stdout ++
          redirect_open_events rd.stderr ++ not_found_events o cmd rd, false)) ∧
    (∀ (o : Oracle) (pre : List PipelineStage) (stage : PipelineStage)
      (post : List PipelineStage),
      (∀ s ∈ pre, (o.resolve s.cmd).isSome = true) → o.resolve stage.cmd = none →
      execute_external_pipeline o (pre ++ stage :: post) =
        pre.flatMap (fun s => ensure_redirect_files s.redirects) ++
          not_found_events o stage.cmd stage.redirects) ∧
    (∀ (o : Oracle) (pre : List PipelineStage) (stage : PipelineStage)
      (post : List PipelineStage),
      (∀ s ∈ pre ++ stage :: post, (o.resolve s.cmd).isSome = true) →
      (∀ s ∈ pre, o.spawnOk s.cmd s.args = true) → o.spawnOk stage.cmd stage.args = false →
      execute_external_pipeline o (pre ++ stage :: post) =
        (pre ++ stage :: post).flatMap (fun s => ensure_redirect_files s.redirects) ++
        (spawn_ok_chunks o true pre ++
          (if post.isEmpty then redirect_open_events stage.redirects.stdout else []) ++
          redirect_open_events stage.redirects.stderr ++
          not_found_events o stage.cmd stage.redirects)) ∧
    (∀ (o : Oracle) (st : ShellState) (buf : List Char) (pre : List PipelineStage)
      (stage : PipelineStage) (post : List PipelineStage),
      (∀ s ∈ pre, mixed_stage_ok o s) → is_builtin_command stage.cmd = false →
      (o.resolve stage.cmd = none ∨ ∀ b, o.externCap stage.cmd stage.args b = none) →
      ∃ evs, (execute_mixed_pipeline o st buf (pre ++ stage :: post)).2 =
        evs ++ ensure_redirect_files stage.redirects ++
          not_found_events o stage.cmd stage.redirects) := by
  refine ⟨?_, ?_, ?_, ?_, ?_, ?_⟩
  · intro o cmd rd
    refine ⟨?_, ?_, ?_⟩
    · intro h
      simp [not_found_events, write_bytes_output, h]
    · intro p m h hopen
      simp [not_found_events, write_bytes_output, h, hopen]
    · intro e he b
      unfold not_found_events write_bytes_output at he
      rcases hrd : rd.stdout with _ | ⟨p, m⟩
      · rw [hrd] at he
        simp at he
        simp [he]
      · rw [hrd] at he
        by_cases hop : o.openOk p m
        · simp [hop] at he
          rcases he with he | he <;> simp [he]
        · simp [hop] at he
          simp [he]
  · intro o st cmd args rd hnb hres
    unfold run_single_stage
    rw [run_builtin_none_of_not_builtin o st cmd args true true hnb, hres]
  · intro o st cmd args rd hnb hres hstatus
    unfold run_single_stage
    rw [run_builtin_none_of_not_builtin o st cmd args true true hnb]
    rcases hr : o.resolve cmd with _ | p
    · rw [hr] at hres; simp at hres
    · simp [hstatus]
  · intro o pre stage post hpre hfail
    unfold execute_external_pipeline
    have hne : (pre ++ stage :: post).isEmpty = false := by
      rcases pre with _ | ⟨x, xs⟩ <;> rfl
    rw [hne]
    rw [external_verify_fail o pre stage post hpre hfail]
    rfl
  · intro o pre stage post hres hpre hfail
    unfold execute_external_pipeline
    have hne : (pre ++ stage :: post).isEmpty = false := by
      rcases pre with _ | ⟨x, xs⟩ <;> rfl
    rw [hne]
    rw [external_verify_ok o (pre ++ stage :: post) hres]
    simp only [if_true, ite_true]
    rw [external_spawn_fail o pre true stage post hpre hfail]
    simp
  · intro o st buf pre stage post hpre hnb hfail
    exact execute_mixed_fail o pre st buf stage post hpre hnb hfail

/-- Witness for C6 at a concrete input: under `oracle0` the unresolvable
single command `nosuch` with no redirects emits exactly the diagnostic on the
real stdout. -/
theorem C6_not_found_routing_witness :
    run_single_stage oracle0 state0 "nosuch".data [] ⟨none, none⟩ =
      (state0, ensure_redirect_files ⟨none, none⟩ ++
        not_found_events oracle0 "nosuch".data ⟨none, none⟩, false) ∧
    not_found_events oracle0 "nosuch".data ⟨none, none⟩ =
      [Ev.stdoutWrite (not_found_msg "nosuch".data)] := by
  constructor
  · exact C6_not_found_routing.2.1 oracle0 state0 "nosuch".data [] ⟨none, none⟩
      (by decide) (by decide)
  · exact (C6_not_found_routing.1 oracle0 "nosuch".data ⟨none, none⟩).1 rfl

/-- Counterexample to C7 as stated: in the all-external pipeline `a | b`
where `b` does not resolve and carries the stderr redirect file `f`, the
planned redirect file `f` is never opened (no creation event occurs); the
whole trace is the diagnostic for `b` on the real stdout. -/
theorem C7_counterexample :
    execute_external_pipeline oracleC7
        [⟨"a".data, [], ⟨none, none⟩⟩, ⟨"b".data, [], ⟨none, some ("f".data, .Truncate)⟩⟩] =
      [Ev.stdoutWrite (not_found_msg "b".data)] ∧
    Ev.openAttempt "f".data RedirectMode.Truncate ∉
      execute_external_pipeline oracleC7
        [⟨"a".data, [], ⟨none, none⟩⟩, ⟨"b".data, [], ⟨none, some ("f".data, .Truncate)⟩⟩] := by
  decide

/-- Claim C7 as amended: redirect files are created stage by stage.  In the
single-stage path every redirect file of the stage is created the moment
planning completes, whatever happens afterwards.  In the all-external path,
verification walks the stages in order, creating each resolvable stage's
files; at the first unresolvable stage it stops, so that stage's and later
stages' files are not created; when every stage resolves, every stage's files
are created even if a spawn later fails.  In the mixed path each stage's
files are created when the stage starts, so stages after a failing stage do
not get their files. -/
theorem C7_redirect_file_creation_amended :
    (∀ (o : Oracle) (st : ShellState) (cmd : List Char) (args : List (List Char))
      (rd : RedirectSpec),
      ∃ (st' : ShellState) (evs : List Ev) (flag : Bool),
      run_single_stage o st cmd args rd = (st', ensure_redirect_files rd ++ evs, flag)) ∧
    (∀ (o : Oracle) (stages : List PipelineStage),
      (∀ s ∈ stages, (o.resolve s.cmd).isSome = true) →
      ∃ evs, execute_external_pipeline o stages =
        stages.flatMap (fun s => ensure_redirect_files s.redirects) ++ evs) ∧
    (∀ (o : Oracle) (pre : List PipelineStage) (stage : PipelineStage)
      (post : List PipelineStage),
      (∀ s ∈ pre, (o.resolve s.cmd).isSome = true) → o.resolve stage.cmd = none →
      execute_external_pipeline o (pre ++ stage :: post) =
        pre.flatMap (fun s => ensure_redirect_files s.redirects) ++
          not_found_events o stage.cmd stage.redirects) ∧
    (∀ (o : Oracle) (st : ShellState) (buf : List Char) (stage : PipelineStage)
      (rest : List PipelineStage),
      ∃ evs, (execute_mixed_pipeline o st buf (stage :: rest)).2 =
        ensure_redirect_files stage.redirects ++ evs) := by
  refine ⟨?_, ?_, ?_, ?_⟩
  · intro o st cmd args rd
    unfold run_single_stage
    rcases hb : run_builtin o st cmd args true true with _ | ⟨st', r⟩
    · rcases hr : o.resolve cmd with _ | p
      · exact ⟨st, not_found_events o cmd rd, false, rfl⟩
      · by_cases hso : o.statusOk cmd args
        · refine ⟨st, redirect_open_events rd.stdout ++ redirect_open_events rd.stderr ++
            [Ev.spawnProc cmd args .inheritStream (wiring_of o rd.stdout)
              (wiring_of o rd.stderr)], false, ?_⟩
          simp [hso]
        · refine ⟨st, redirect_open_events rd.stdout ++ redirect_open_events rd.stderr ++
            not_found_events o cmd rd, false, ?_⟩
          simp [hso]
    · refine ⟨st', (if r.stdout = [] then [] else write_bytes_output o r.stdout .Stdout rd) ++
        (if r.stderr = [] then [] else write_bytes_output o r.stderr .Stderr rd),
        r.should_exit, ?_⟩
      simp
  · intro o stages hres
    rcases stages with _ | ⟨s, rest⟩
    · exact ⟨[], rfl⟩
    · refine ⟨external_spawn o true (s :: rest), ?_⟩
      unfold execute_external_pipeline
      rw [external_verify_ok o (s :: rest) hres]
      rfl
  · intro o pre stage post hpre hfail
    unfold execute_external_pipeline
    have hne : (pre ++ stage :: post).isEmpty = false := by
      rcases pre with _ | ⟨x, xs⟩ <;> rfl
    rw [hne]
    rw [external_verify_fail o pre stage post hpre hfail]
    rfl
  · intro o st buf stage rest
    rw [execute_mixed_cons]
    rcases hstep : mixed_step o st buf stage with _ | ⟨st', r⟩
    · exact ⟨not_found_events o stage.cmd stage.redirects, rfl⟩
    · by_cases hrest : rest.isEmpty
      · refine ⟨(if r.stderr = [] then [] else
          write_bytes_output o r.stderr .Stderr stage.redirects) ++
          write_bytes_output o r.stdout .Stdout stage.redirects, ?_⟩
        simp [hrest]
      · refine ⟨(if r.stderr = [] then [] else
          write_bytes_output o r.stderr .Stderr stage.redirects) ++
          (execute_mixed_pipeline o st' r.stdout rest).2, ?_⟩
        simp [hrest]

/-- Witness for the amended C7 at a concrete input: resolving both stages of
`a | b` (but letting both spawns fail) still creates the redirect file `f` of
the second stage. -/
theorem C7_redirect_file_creation_amended_witness :
    ∃ evs, execute_external_pipeline
        ⟨none, fun _ => some "/bin/x".data, fun _ _ => none, fun _ _ => true,
          fun _ _ _ => none, fun _ _ => false, fun _ _ => false⟩
        [⟨"a".data, [], ⟨none, none⟩⟩, ⟨"b".data, [], ⟨none, some ("f".data, .Truncate)⟩⟩] =
      [⟨"a".data, [], (⟨none, none⟩ : RedirectSpec)⟩,
        (⟨"b".data, [], ⟨none, some ("f".data, .Truncate)⟩⟩ : PipelineStage)].flatMap
          (fun s => ensure_redirect_files s.redirects) ++ evs :=
  C7_redirect_file_creation_amended.2.1
    ⟨none, fun _ => some "/bin/x".data, fun _ _ => none, fun _ _ => true,
      fun _ _ _ => none, fun _ _ => false, fun _ _ => false⟩
    [⟨"a".data, [], ⟨none, none⟩⟩, ⟨"b".data, [], ⟨none, some ("f".data, .Truncate)⟩⟩]
    (by decide)

/-- Counterexample to C8 as stated: under an oracle whose opens fail, a
buffered stdout write with a configured stdout redirect produces only the
failed open attempt — the bytes are not written to the real stdout (nor
anywhere else), contradicting the claim that the stage proceeds with the
original stream for this output. -/
theorem C8_counterexample :
    write_bytes_output oracle0 "x".data .Stdout ⟨some ("f".data, .Truncate), none⟩ =
      [Ev.openAttempt "f".data RedirectMode.Truncate] ∧
    Ev.stdoutWrite "x".data ∉
      write_bytes_output oracle0 "x".data .Stdout ⟨some ("f".data, .Truncate), none⟩ := by
  decide

/-- Claim C8 as amended: a failed redirect open is silently ignored (no
message, no abort); for buffered output written through `write_bytes_output`
(builtin results, captured mixed-pipeline output, diagnostics) the bytes are
discarded — only the open attempt is observable and nothing reaches the
original stream; for spawned external stages the failed open leaves the
child's stream wired to the inherited original stdout/stderr. -/
theorem C8_redirect_open_failure_amended :
    (∀ (o : Oracle) (bytes : List Char) (stream : OutputStream) (rd : RedirectSpec)
      (p : List Char) (m : RedirectMode),
      (match stream with
       | .Stdout => rd.stdout
       | .Stderr => rd.stderr) = some (p, m) →
      o.openOk p m = false →
      write_bytes_output o bytes stream rd = [Ev.openAttempt p m]) ∧
    (∀ (o : Oracle) (p : List Char) (m : RedirectMode),
      o.openOk p m = false → wiring_of o (some (p, m)) = Wiring.inheritStream) := by
  constructor
  · intro o bytes stream rd p m hsel hopen
    unfold write_bytes_output
    rw [hsel]
    simp [hopen]
  · intro o p m hopen
    simp [wiring_of, hopen]

/-- Witness for the amended C8 at a concrete input: with failing opens, the
buffered write yields only the open attempt, and the spawn wiring falls back
to the inherited stream. -/
theorem C8_redirect_open_failure_amended_witness :
    write_bytes_output oracle0 "x".data .Stdout ⟨some ("f".data, .Truncate), none⟩ =
      [Ev.openAttempt "f".data RedirectMode.Truncate] ∧
    wiring_of oracle0 (some ("f".data, RedirectMode.Truncate)) = Wiring.inheritStream := by
  constructor
  · exact C8_redirect_open_failure_amended.1 oracle0 "x".data .Stdout
      ⟨some ("f".data, .Truncate), none⟩ "f".data RedirectMode.Truncate (by decide) (by decide)
  · exact C8_redirect_open_failure_amended.2 oracle0 "f".data RedirectMode.Truncate (by decide)

end Shell
